import Mathlib

/-!
Verification of the toydb Raft candidate role (src/raft/node/candidate.rs)
against its natural-language specification.

The candidate role's own handlers (`step`, `tick`, `become_follower`,
`become_leader`) are translated directly from `candidate.rs`.  The
collaborators that `candidate.rs` uses but whose source is not part of the
visible repository slice (the `Log`, the shared `RoleNode` helpers
`normalize_message` / `save_term` / `quorum` / `broadcast`, the `Follower`
and `Leader` roles) are modelled from the specification; each such
definition carries a doc comment saying so.

Rust `u64` values (terms, indices, tick counters, vote counts) are modelled
as `Nat`: they only ever grow by small increments, so overflow is not
reachable in any behaviour the claims quantify over.  Rust handlers return
`Result<_, Error>` where the only error sources are storage and channel
I/O; the model has no I/O, so handlers are total functions returning the
success value, and emitted messages are collected in an output list in
emission order.
-/

namespace Raft

/-- Opaque command bytes (Rust `Vec<u8>`). -/
abbrev Command := List Nat

/-- A log entry: `{ term, command }`, `command = none` is a no-op. -/
structure Entry where
  term : Nat
  command : Option Command
deriving DecidableEq, Repr

/-- Message events, one constructor per Rust `Event` variant. -/
inductive Event where
  | Heartbeat (commit_index : Nat) (commit_term : Nat)
  | ConfirmLeader (commit_index : Nat) (has_committed : Bool)
  | SolicitVote (last_index : Nat) (last_term : Nat)
  | GrantVote
  | ReplicateEntries (base_index : Nat) (base_term : Nat) (entries : List Entry)
  | AcceptEntries (last_index : Nat)
  | RejectEntries
  | QueryState (call_id : Command) (command : Command)
  | MutateState (call_id : Command) (command : Command)
  | RespondState (call_id : Command) (response : Command)
  | RespondError (call_id : Command) (error : String)
deriving DecidableEq, Repr

/-- A message: `{ from, to, term, event }`.  `to = none` means broadcast,
`«from» = none` means locally originated. -/
structure Message where
  «from» : Option String
  «to» : Option String
  term : Nat
  event : Event
deriving DecidableEq, Repr

/-- Modelled from the spec: the `Log` (source `src/raft/log.rs` is not in
the visible slice).  Entries are 1-indexed (`entries.get? (i-1)` is the
entry at index `i`); `commit_index` / `apply_index` are the commit and
apply cursors with `apply_index ≤ commit_index ≤ entries.length`. -/
structure Log where
  entries : List Entry
  commit_index : Nat
  apply_index : Nat
deriving DecidableEq, Repr

/-- The term of the entry at 1-based index `i`, or 0 when `i = 0` or out of
range (the Rust log treats index 0 as the empty prefix with term 0). -/
def Log.termAt (l : Log) (i : Nat) : Nat :=
  if i = 0 then 0 else ((l.entries.get? (i - 1)).map Entry.term).getD 0

/-- Modelled from the spec: `log.get_last() → (last index, last term)`. -/
def Log.get_last (l : Log) : Nat × Nat :=
  (l.entries.length, l.termAt l.entries.length)

/-- Modelled from the spec: `log.get_committed() → (commit index, its term)`. -/
def Log.get_committed (l : Log) : Nat × Nat :=
  (l.commit_index, l.termAt l.commit_index)

/-- Modelled from the spec: `log.has(index, term)` — does the log contain
an entry at `index` with `term`?  Index 0 matches exactly term 0. -/
def Log.has (l : Log) (i t : Nat) : Bool :=
  if i = 0 then t = 0
  else match l.entries.get? (i - 1) with
    | some e => e.term = t
    | none => false

/-- The application state machine, modelled as the record of applied
entries `(index, command)` in application order (the concrete `State` is
out of the visible slice; only the fact that one entry is consumed per
`apply` matters to the claims). -/
abbrev StateM := List (Nat × Option Command)

/-- Modelled from the spec: `log.apply(&mut state)` applies the next
committed-but-unapplied entry, advancing `apply_index` and returning the
applied index; returns `none` when nothing is applyable. -/
def Log.applyOne (l : Log) (s : StateM) : Option (Log × StateM × Nat) :=
  if l.apply_index < l.commit_index then
    match l.entries.get? l.apply_index with
    | some e =>
        some ({ l with apply_index := l.apply_index + 1 },
              s ++ [(l.apply_index + 1, e.command)], l.apply_index + 1)
    | none => none
  else none

/-- Fuelled iteration of `Log.applyOne`, stopping when it yields `none`. -/
def applyIter : Nat → Log → StateM → Log × StateM
  | 0, l, s => (l, s)
  | fuel + 1, l, s =>
    match l.applyOne s with
    | none => (l, s)
    | some (l', s', _) => applyIter fuel l' s'

/-- The Rust `while let Some(_) = self.log.apply(&mut self.state)? {}`
loop: each successful `applyOne` advances `apply_index` by one towards
`commit_index`, so `commit_index - apply_index` steps of fuel make the
fuelled iteration equal to running the loop to exhaustion. -/
def drainApply (l : Log) (s : StateM) : Log × StateM :=
  applyIter (l.commit_index - l.apply_index) l s

/-- The candidate role data (candidate.rs lines 10-18). -/
structure Candidate where
  election_ticks : Nat
  election_timeout : Nat
  votes : Nat
deriving DecidableEq, Repr

/-- `Candidate::new()` (candidate.rs lines 21-30).  The randomized
election timeout drawn from `[ELECTION_TIMEOUT_MIN, ELECTION_TIMEOUT_MAX)`
is passed in explicitly as `ft`; we always start with a vote for
ourselves. -/
def Candidate.new (ft : Nat) : Candidate :=
  { election_ticks := 0, election_timeout := ft, votes := 1 }

/-- Modelled from the spec: the follower role data (source
`src/raft/node/follower.rs` is not in the visible slice). -/
structure Follower where
  leader : Option String
  voted_for : Option String
  leader_seen_ticks : Nat
  election_timeout : Nat
deriving DecidableEq, Repr

/-- Modelled from the spec: `Follower::new(leader, voted_for)`; the
randomized election timeout is passed explicitly as `ft`. -/
def Follower.new (leader voted : Option String) (ft : Nat) : Follower :=
  { leader := leader, voted_for := voted, leader_seen_ticks := 0, election_timeout := ft }

/-- Modelled from the spec: the leader role data (source
`src/raft/node/leader.rs` is not in the visible slice). -/
structure Leader where
  peer_next_index : List (String × Nat)
  peer_last_index : List (String × Nat)
  heartbeat_ticks : Nat
deriving DecidableEq, Repr

/-- Modelled from the spec: `Leader::new(peers, last_index)` sets
`peer_next_index = last_index + 1` and `peer_last_index = 0` for every
peer. -/
def Leader.new (peers : List String) (last_index : Nat) : Leader :=
  { peer_next_index := peers.map fun p => (p, last_index + 1),
    peer_last_index := peers.map fun p => (p, 0),
    heartbeat_ticks := 0 }

/-- The shared node context `RoleNode<R>`: identity, peers, current term,
log, state and role data.  `votedFor` models the second component of the
persisted `(current_term, voted_for)` record written by `save_term`; the
`term` field is the in-memory term which `save_term` keeps in sync with
the persisted one.  The outbound channel is modelled by returning emitted
messages from the handlers instead. -/
structure RoleNode (R : Type) where
  id : String
  peers : List String
  term : Nat
  votedFor : Option String
  log : Log
  state : StateM
  role : R
deriving DecidableEq, Repr

/-- The tagged union `Node` over the three role instantiations. -/
inductive Node where
  | follower : RoleNode Follower → Node
  | candidate : RoleNode Candidate → Node
  | leader : RoleNode Leader → Node
deriving DecidableEq, Repr

/-- Current term of a node, whatever its role. -/
def Node.termOf : Node → Nat
  | .follower n => n.term
  | .candidate n => n.term
  | .leader n => n.term

/-- Persisted `voted_for` of a node, whatever its role. -/
def Node.votedForOf : Node → Option String
  | .follower n => n.votedFor
  | .candidate n => n.votedFor
  | .leader n => n.votedFor

/-- The log of a node, whatever its role. -/
def Node.logOf : Node → Log
  | .follower n => n.log
  | .candidate n => n.log
  | .leader n => n.log

/-- The application state of a node, whatever its role. -/
def Node.stateOf : Node → StateM
  | .follower n => n.state
  | .candidate n => n.state
  | .leader n => n.state

/-- Is the node a leader? -/
def Node.isLeader : Node → Bool
  | .leader _ => true
  | _ => false

/-- Is the node a candidate? -/
def Node.isCandidate : Node → Bool
  | .candidate _ => true
  | _ => false

/-- Is the node a follower? -/
def Node.isFollower : Node → Bool
  | .follower _ => true
  | _ => false

/-- Modelled from the spec: `quorum() = ⌊(|peers| + 1) / 2⌋ + 1`. -/
def quorum (peers : List String) : Nat :=
  (peers.length + 1) / 2 + 1

/-- Modelled from the spec: `normalize_message`.  Drops (returns `none`)
when `to` is set and differs from our id, or when the message term is
stale (`< term`); otherwise fills in a missing `to` with our id. -/
def normalizeMessage (id : String) (term : Nat) (msg : Message) : Option Message :=
  match msg.to with
  | some t => if t = id then (if msg.term < term then none else some msg) else none
  | none => if msg.term < term then none else some { msg with «to» := some id }

/-- A directed message `send(to, event)` with our id and term filled in. -/
def mkMsg (fromId toId : String) (term : Nat) (e : Event) : Message :=
  { «from» := some fromId, «to» := some toId, term := term, event := e }

/-- Modelled from the spec: `broadcast(event)` emits one message per peer
carrying our id and current term. -/
def broadcastMsgs (id : String) (peers : List String) (term : Nat) (e : Event) : List Message :=
  peers.map fun p => mkMsg id p term e

/-- Association-list lookup with a default, for the leader's per-peer
index maps. -/
def lookupD (l : List (String × Nat)) (k : String) (d : Nat) : Nat :=
  ((l.find? fun kv => kv.1 == k).map Prod.snd).getD d

/-- Modelled from the spec: the leader's `append(command)` — append the
entry `{ term: self.term, command }` to the log, then replicate to every
peer the entries at and after that peer's `peer_next_index`, based at
`peer_next_index - 1`. -/
def leaderAppend (n : RoleNode Leader) (cmd : Option Command) : RoleNode Leader × List Message :=
  let e : Entry := { term := n.term, command := cmd }
  let log' : Log := { n.log with entries := n.log.entries ++ [e] }
  let reps := n.peers.map fun p =>
    let next := lookupD n.role.peer_next_index p (log'.entries.length + 1)
    mkMsg n.id p n.term
      (.ReplicateEntries (next - 1) (log'.termAt (next - 1)) (log'.entries.drop (next - 1)))
  ({ n with log := log' }, reps)

/-- `RoleNode<Candidate>::become_follower(term, leader)` (candidate.rs
lines 35-43): `save_term(term, None)` — persisting the term with a cleared
vote — then `become_role(Follower::new(Some(leader), None))`, keeping the
shared context.  `ft` is the new follower's randomized election
timeout. -/
def becomeFollower (ft : Nat) (n : RoleNode Candidate) (term : Nat) (leader : String) :
    RoleNode Follower :=
  { id := n.id, peers := n.peers, term := term, votedFor := none,
    log := n.log, state := n.state, role := Follower.new (some leader) none ft }

/-- Term adoption inside the follower's `step` — modelled from the spec:
on a message with a strictly greater term and a sender, adopt the term,
clear the persisted vote and follow the sender. -/
def followerAdopt (n : RoleNode Follower) (msg : Message) : RoleNode Follower :=
  if n.term < msg.term then
    match msg.«from» with
    | some l =>
      { n with
        term := msg.term, votedFor := none
        role := { n.role with leader := some l, voted_for := none, leader_seen_ticks := 0 } }
    | none => n
  else n

/-- Is log `(lt, li)` at least as up-to-date as our log's last `(t, i)`:
lexicographic compare on term then index. -/
def upToDate (lt li t i : Nat) : Bool :=
  t < lt || (lt == t && i ≤ li)

/-- Modelled from the spec: the follower's event dispatch, §4.3 — on a
Heartbeat record the leader, advance the commit cursor no further than the
last index (and never backwards), drain the apply queue and answer
`ConfirmLeader`; on SolicitVote grant iff not yet voted for someone else
this term and the candidate's log is at least as up-to-date as ours,
persisting the vote; on ReplicateEntries check the base, truncate any
conflicting suffix, append and answer `AcceptEntries`, else
`RejectEntries`.  Remaining events are ignored by the follower. -/
def followerDispatch (n : RoleNode Follower) (msg : Message) : Node × List Message :=
  match msg.event with
  | .Heartbeat ci ct =>
    match msg.«from» with
    | some l =>
      let hasC := n.log.has ci ct
      let log' : Log :=
        { n.log with commit_index := max n.log.commit_index (min ci n.log.entries.length) }
      let d := drainApply log' n.state
      (Node.follower { n with
          log := d.1, state := d.2
          role := { n.role with leader := some l, leader_seen_ticks := 0 } },
        [mkMsg n.id l n.term (.ConfirmLeader ci hasC)])
    | none => (Node.follower n, [])
  | .SolicitVote li lt =>
    match msg.«from» with
    | some c =>
      if (n.votedFor = none ∨ n.votedFor = some c)
          ∧ upToDate lt li (n.log.get_last).2 (n.log.get_last).1 then
        (Node.follower { n with
            votedFor := some c
            role := { n.role with voted_for := some c } },
          [mkMsg n.id c n.term .GrantVote])
      else (Node.follower n, [])
    | none => (Node.follower n, [])
  | .ReplicateEntries bi bt es =>
    match msg.«from» with
    | some l =>
      if n.log.has bi bt then
        let log' : Log := { n.log with entries := n.log.entries.take bi ++ es }
        (Node.follower { n with log := log' },
          [mkMsg n.id l n.term (.AcceptEntries log'.entries.length)])
      else (Node.follower n, [mkMsg n.id l n.term .RejectEntries])
    | none => (Node.follower n, [])
  | _ => (Node.follower n, [])

/-- Modelled from the spec: the follower's `step` — normalize, adopt a
strictly greater term, then dispatch on the event. -/
def followerStep (n : RoleNode Follower) (msg : Message) : Node × List Message :=
  match normalizeMessage n.id n.term msg with
  | none => (Node.follower n, [])
  | some m => followerDispatch (followerAdopt n m) m

/-- `RoleNode<Candidate>::become_leader()` (candidate.rs lines 46-55):
keep the shared context, construct `Leader::new(peers, last_index)`,
broadcast a Heartbeat carrying the log's committed `(index, term)`, then
append a no-op entry via the leader's `append(None)`, replicating it to
every peer. -/
def becomeLeader (n : RoleNode Candidate) : Node × List Message :=
  let last := n.log.get_last
  let cmt := n.log.get_committed
  let ld : RoleNode Leader :=
    { id := n.id, peers := n.peers, term := n.term, votedFor := n.votedFor,
      log := n.log, state := n.state, role := Leader.new n.peers last.1 }
  let hb := broadcastMsgs ld.id ld.peers ld.term (.Heartbeat cmt.1 cmt.2)
  let ap := leaderAppend ld none
  (Node.leader ap.1, hb ++ ap.2)

/-- The event dispatch of `RoleNode<Candidate>::step` (candidate.rs lines
68-91), reached after normalization and the higher-term check: a Heartbeat
with a sender demotes to follower of that sender at the message's term; a
GrantVote increments `votes` and promotes to leader once `votes ≥
quorum()`; every other event is ignored. -/
def candidateDispatch (ft : Nat) (n : RoleNode Candidate) (msg : Message) :
    Node × List Message :=
  match msg.event with
  | .Heartbeat _ _ =>
    match msg.«from» with
    | some l => followerStep (becomeFollower ft n msg.term l) msg
    | none => (Node.candidate n, [])
  | .GrantVote =>
    let role := { n.role with votes := n.role.votes + 1 }
    if quorum n.peers ≤ role.votes then becomeLeader { n with role := role }
    else (Node.candidate { n with role := role }, [])
  | _ => (Node.candidate n, [])

/-- `RoleNode<Candidate>::step(msg)` (candidate.rs lines 58-93): drop
anything `normalize_message` rejects; on a message with a strictly greater
term carrying a sender, become that sender's follower at the new term and
re-dispatch the message to it; otherwise dispatch on the event. -/
def candidateStep (ft : Nat) (n : RoleNode Candidate) (msg : Message) :
    Node × List Message :=
  match normalizeMessage n.id n.term msg with
  | none => (Node.candidate n, [])
  | some m =>
    if n.term < m.term then
      match m.«from» with
      | some l => followerStep (becomeFollower ft n m.term l) m
      | none => candidateDispatch ft n m
    else candidateDispatch ft n m

/-- `RoleNode<Candidate>::tick()` (candidate.rs lines 96-108): drain the
apply queue, then advance the election clock; on timeout, persist
`(term + 1, None)`, reset the role to a fresh `Candidate::new()` (with
randomized timeout `ft`) and broadcast `SolicitVote` with the log's last
`(index, term)`. -/
def candidateTick (ft : Nat) (n : RoleNode Candidate) : Node × List Message :=
  let log1 := (drainApply n.log n.state).1
  let st1 := (drainApply n.log n.state).2
  let ticks := n.role.election_ticks + 1
  if n.role.election_timeout ≤ ticks then
    let n' : RoleNode Candidate :=
      { n with
        log := log1, state := st1, term := n.term + 1, votedFor := none
        role := Candidate.new ft }
    (Node.candidate n',
      broadcastMsgs n'.id n'.peers n'.term (.SolicitVote (log1.get_last).1 (log1.get_last).2))
  else
    (Node.candidate
      { n with log := log1, state := st1, role := { n.role with election_ticks := ticks } }, [])

/-! Concrete fixtures mirroring the candidate.rs test setup: node `a` with
peers `{b, c, d, e}` at term 3, log `[{t:1}, {t:1}, {t:2}]` with
`commit_index = 2` and one entry applied.  Per spec §4.2 a candidate is
entered with its self-vote persisted, so the fixture carries
`votedFor = some "a"` (the Rust test's own setup persists `(3, None)`,
reflecting the same slip the claims below expose). -/

def aId : String := "a"

def bId : String := "b"

def cId : String := "c"

def dId : String := "d"

def eId : String := "e"

def testLog : Log :=
  { entries := [⟨1, some [1]⟩, ⟨1, some [2]⟩, ⟨2, some [3]⟩],
    commit_index := 2, apply_index := 1 }

def testState : StateM := [(1, some [1])]

def cNode : RoleNode Candidate :=
  { id := aId, peers := [bId, cId, dId, eId], term := 3, votedFor := some aId,
    log := testLog, state := testState,
    role := { election_ticks := 0, election_timeout := 10, votes := 1 } }

/-- The fixture candidate one tick away from its election timeout. -/
def cNodeT : RoleNode Candidate :=
  { cNode with role := { election_ticks := 0, election_timeout := 1, votes := 1 } }

/-- The fixture candidate after one accepted `GrantVote` (votes = 2). -/
def cNodeV2 : RoleNode Candidate :=
  { cNode with role := { election_ticks := 0, election_timeout := 10, votes := 2 } }

def hb3 : Message := { «from» := some bId, «to» := some aId, term := 3, event := .Heartbeat 1 1 }

def hb2 : Message := { «from» := some bId, «to» := some aId, term := 2, event := .Heartbeat 1 1 }

def hb5none : Message := { «from» := none, «to» := none, term := 5, event := .Heartbeat 1 1 }

def hbNone3 : Message := { «from» := none, «to» := some aId, term := 3, event := .Heartbeat 1 1 }

def gvC : Message := { «from» := some cId, «to» := some aId, term := 3, event := .GrantVote }

def gvE : Message := { «from» := some eId, «to» := some aId, term := 3, event := .GrantVote }

def sv5 : Message := { «from» := some dId, «to» := some aId, term := 5, event := .SolicitVote 3 2 }

/-! Helper lemmas. -/

lemma applyOne_some_cursors {l : Log} {s : StateM} {l' : Log} {s' : StateM} {i : Nat}
    (h : l.applyOne s = some (l', s', i)) :
    l'.commit_index = l.commit_index ∧ l'.apply_index = l.apply_index + 1 := by
  unfold Log.applyOne at h
  split at h
  · split at h
    · simp only [Option.some.injEq, Prod.mk.injEq] at h
      obtain ⟨h1, -, -⟩ := h
      subst h1
      exact ⟨rfl, rfl⟩
    · exact absurd h (by simp)
  · exact absurd h (by simp)

lemma applyIter_exhausts :
    ∀ (fuel : Nat) (l : Log) (s : StateM), l.commit_index - l.apply_index ≤ fuel →
      ((applyIter fuel l s).1).applyOne (applyIter fuel l s).2 = none := by
  intro fuel
  induction fuel with
  | zero =>
    intro l s h
    have hn : ¬ l.apply_index < l.commit_index := by omega
    simp [applyIter, Log.applyOne, hn]
  | succ k ih =>
    intro l s h
    cases hx : l.applyOne s with
    | none => simp [applyIter, hx]
    | some t =>
      obtain ⟨l', s', i⟩ := t
      obtain ⟨hc, ha⟩ := applyOne_some_cursors hx
      have : l'.commit_index - l'.apply_index ≤ k := by omega
      simpa [applyIter, hx] using ih l' s' this

lemma drainApply_exhausts (l : Log) (s : StateM) :
    ((drainApply l s).1).applyOne (drainApply l s).2 = none :=
  applyIter_exhausts _ l s le_rfl

lemma normalize_to_self {id : String} {term : Nat} {msg : Message}
    (hto : msg.«to» = some id) (ht : ¬ msg.term < term) :
    normalizeMessage id term msg = some msg := by
  simp [normalizeMessage, hto, ht]

lemma normalize_term {id : String} {t : Nat} {msg m : Message}
    (h : normalizeMessage id t msg = some m) : m.term = msg.term ∧ ¬ m.term < t := by
  unfold normalizeMessage at h
  split at h
  · split at h
    · split at h
      · exact absurd h (by simp)
      · simp only [Option.some.injEq] at h
        subst h
        constructor
        · rfl
        · omega
    · exact absurd h (by simp)
  · split at h
    · exact absurd h (by simp)
    · simp only [Option.some.injEq] at h
      subst h
      refine ⟨rfl, ?_⟩
      show ¬ msg.term < t
      omega

lemma followerDispatch_term (n : RoleNode Follower) (msg : Message) :
    ((followerDispatch n msg).1).termOf = n.term := by
  rcases msg with ⟨f, t, tm, ev⟩
  cases ev <;> cases f <;> simp only [followerDispatch] <;> first | rfl | (split <;> rfl)

lemma followerAdopt_term_le (n : RoleNode Follower) (msg : Message) :
    n.term ≤ (followerAdopt n msg).term := by
  unfold followerAdopt
  split
  · cases msg.«from»
    · exact le_rfl
    · show n.term ≤ msg.term
      omega
  · exact le_rfl

lemma followerAdopt_of_le (n : RoleNode Follower) (msg : Message)
    (h : msg.term ≤ n.term) : followerAdopt n msg = n := by
  unfold followerAdopt
  have : ¬ n.term < msg.term := by omega
  simp [this]

lemma followerStep_term_mono (n : RoleNode Follower) (msg : Message) :
    n.term ≤ ((followerStep n msg).1).termOf := by
  unfold followerStep
  cases hn : normalizeMessage n.id n.term msg with
  | none => simp [Node.termOf]
  | some m =>
    simp only []
    rw [followerDispatch_term]
    exact followerAdopt_term_le n m

lemma lookupD_const (peers : List String) (p : String) (v d : Nat) (hp : p ∈ peers) :
    lookupD (peers.map fun q => (q, v)) p d = v := by
  induction peers with
  | nil => cases hp
  | cons q rest ih =>
    by_cases hq : ((q, v).1 == p) = true
    · simp [lookupD, List.find?, hq]
    · rw [Bool.not_eq_true] at hq
      have hp' : p ∈ rest := by
        cases hp with
        | head => simp at hq
        | tail _ h => exact h
      unfold lookupD at ih ⊢
      rw [List.map_cons]
      simp only [List.find?, hq]
      exact ih hp'

lemma termAt_append_last (l : Log) (e : Entry) :
    Log.termAt { l with entries := l.entries ++ [e] } l.entries.length = (l.get_last).2 := by
  show Log.termAt { l with entries := l.entries ++ [e] } l.entries.length
      = Log.termAt l l.entries.length
  unfold Log.termAt
  by_cases h0 : l.entries.length = 0
  · simp [h0]
  · have hlt : l.entries.length - 1 < l.entries.length := by omega
    simp only [if_neg h0]
    rw [List.get?_append hlt]

/-- The full effect of `become_leader` (candidate.rs lines 46-55): the
leader keeps the shared context, appends the no-op entry, and the emitted
messages are the Heartbeat broadcast followed by one `ReplicateEntries`
per peer carrying the no-op, based at the previous last `(index, term)`. -/
lemma becomeLeader_eq (n : RoleNode Candidate) :
    becomeLeader n =
      (Node.leader
        { id := n.id, peers := n.peers, term := n.term, votedFor := n.votedFor,
          log := { n.log with entries := n.log.entries ++ [⟨n.term, none⟩] }, state := n.state,
          role := Leader.new n.peers (n.log.get_last).1 },
        broadcastMsgs n.id n.peers n.term
            (.Heartbeat (n.log.get_committed).1 (n.log.get_committed).2)
          ++ n.peers.map fun p => mkMsg n.id p n.term
            (.ReplicateEntries (n.log.get_last).1 (n.log.get_last).2 [⟨n.term, none⟩])) := by
  unfold becomeLeader leaderAppend
  simp only [Prod.mk.injEq]
  refine ⟨by trivial, ?_⟩
  congr 1
  apply List.map_congr_left
  intro p hp
  have hlk := lookupD_const n.peers p ((n.log.get_last).1 + 1)
      ((n.log.entries ++ [(⟨n.term, none⟩ : Entry)]).length + 1) hp
  simp only [Leader.new, hlk]
  rw [show (n.log.get_last).1 + 1 - 1 = n.log.entries.length from rfl]
  rw [termAt_append_last n.log ⟨n.term, none⟩, List.drop_left]
  rfl

lemma followerStep_term_of_le (n : RoleNode Follower) (msg : Message)
    (h : msg.term ≤ n.term) : ((followerStep n msg).1).termOf = n.term := by
  unfold followerStep
  cases hn : normalizeMessage n.id n.term msg with
  | none => simp [Node.termOf]
  | some m =>
    obtain ⟨hm, -⟩ := normalize_term hn
    simp only []
    rw [followerDispatch_term, followerAdopt_of_le]
    omega

lemma candidateStep_norm_some (ft : Nat) (n : RoleNode Candidate) (msg m : Message)
    (hn : normalizeMessage n.id n.term msg = some m) :
    candidateStep ft n msg =
      (if n.term < m.term then
        match m.«from» with
        | some l => followerStep (becomeFollower ft n m.term l) m
        | none => candidateDispatch ft n m
      else candidateDispatch ft n m) := by
  unfold candidateStep
  rw [hn]

lemma candidateStep_same_term (ft : Nat) (n : RoleNode Candidate) (msg : Message)
    (hto : msg.«to» = some n.id) (ht : msg.term = n.term) :
    candidateStep ft n msg = candidateDispatch ft n msg := by
  rw [candidateStep_norm_some ft n msg msg (normalize_to_self hto (by omega))]
  rw [if_neg (by omega : ¬ n.term < msg.term)]

lemma candidateStep_higher (ft : Nat) (n : RoleNode Candidate) (msg : Message) (f : String)
    (hto : msg.«to» = some n.id) (ht : n.term < msg.term) (hf : msg.«from» = some f) :
    candidateStep ft n msg = followerStep (becomeFollower ft n msg.term f) msg := by
  rw [candidateStep_norm_some ft n msg msg (normalize_to_self hto (by omega))]
  rw [if_pos ht, hf]

lemma candidateDispatch_grantVote (ft : Nat) (n : RoleNode Candidate) (msg : Message)
    (hev : msg.event = .GrantVote) :
    candidateDispatch ft n msg =
      (if quorum n.peers ≤ n.role.votes + 1 then
        becomeLeader { n with role := { n.role with votes := n.role.votes + 1 } }
      else (Node.candidate { n with role := { n.role with votes := n.role.votes + 1 } }, [])) := by
  unfold candidateDispatch
  rw [hev]

lemma candidateDispatch_term_mono (ft : Nat) (n : RoleNode Candidate) (msg : Message)
    (h : n.term ≤ msg.term) : n.term ≤ ((candidateDispatch ft n msg).1).termOf := by
  unfold candidateDispatch
  obtain ⟨f, mto, tm, ev⟩ := msg
  cases ev with
  | Heartbeat ci ct =>
    cases f with
    | some l =>
      exact le_trans h (followerStep_term_mono (becomeFollower ft n tm l) _)
    | none => exact le_rfl
  | GrantVote =>
    dsimp only
    split
    · rw [becomeLeader_eq]
      exact le_rfl
    · exact le_rfl
  | _ => exact le_rfl

/-! The claims. -/

/-- Claim C1: a candidate receiving `GrantVote` at its own term increments
`votes`; if `votes` then reaches `quorum()` it becomes leader at the same
term and emits, to every peer, first a Heartbeat carrying the log's
committed `(index, term)` and then — via the leader's no-op append — a
replication of the new no-op entry `{ term: self.term, command: None }`;
below quorum it stays candidate and emits nothing. -/
theorem grantvote_tally_and_promotion (ft : Nat) (n : RoleNode Candidate) (msg : Message)
    (hto : msg.«to» = some n.id) (ht : msg.term = n.term) (hev : msg.event = .GrantVote) :
    (quorum n.peers ≤ n.role.votes + 1 →
      ∃ ld : RoleNode Leader,
        candidateStep ft n msg =
          (Node.leader ld,
            broadcastMsgs n.id n.peers n.term
                (.Heartbeat (n.log.get_committed).1 (n.log.get_committed).2)
              ++ n.peers.map fun p => mkMsg n.id p n.term
                (.ReplicateEntries (n.log.get_last).1 (n.log.get_last).2 [⟨n.term, none⟩]))
          ∧ ld.term = n.term ∧ ld.log.entries = n.log.entries ++ [⟨n.term, none⟩])
    ∧ (n.role.votes + 1 < quorum n.peers →
      candidateStep ft n msg =
        (Node.candidate { n with role := { n.role with votes := n.role.votes + 1 } }, [])) := by
  rw [candidateStep_same_term ft n msg hto ht, candidateDispatch_grantVote ft n msg hev]
  constructor
  · intro hq
    rw [if_pos hq, becomeLeader_eq]
    exact ⟨_, rfl, rfl, rfl⟩
  · intro hlt
    rw [if_neg (by omega)]

theorem grantvote_tally_and_promotion_witness :
    quorum cNodeV2.peers ≤ cNodeV2.role.votes + 1 ∧
    ∃ ld : RoleNode Leader,
      candidateStep 7 cNodeV2 gvE =
        (Node.leader ld,
          broadcastMsgs cNodeV2.id cNodeV2.peers cNodeV2.term
              (.Heartbeat (cNodeV2.log.get_committed).1 (cNodeV2.log.get_committed).2)
            ++ cNodeV2.peers.map fun p => mkMsg cNodeV2.id p cNodeV2.term
              (.ReplicateEntries (cNodeV2.log.get_last).1 (cNodeV2.log.get_last).2
                [⟨cNodeV2.term, none⟩]))
        ∧ ld.term = cNodeV2.term
        ∧ ld.log.entries = cNodeV2.log.entries ++ [⟨cNodeV2.term, none⟩] :=
  ⟨by decide, (grantvote_tally_and_promotion 7 cNodeV2 gvE rfl rfl rfl).1 (by decide)⟩

/-- Claim C2 (code bug): the claim says a candidate whose election times
out persists the new term together with a vote for itself
(`voted_for = Some(self.id)`); the code (candidate.rs line 102) calls
`save_term(self.term + 1, None)`, persisting no self-vote.  On the
concrete fixture the timed-out tick leaves term 4, a fresh candidate
role, and the SolicitVote broadcast with the log's last `(index, term)` —
but a persisted `voted_for = none`. -/
theorem election_timeout_persists_no_selfvote :
    ((candidateTick 7 cNodeT).1).termOf = 4
    ∧ ((candidateTick 7 cNodeT).1).votedForOf = none
    ∧ ((candidateTick 7 cNodeT).1).isCandidate = true
    ∧ (candidateTick 7 cNodeT).2 =
        broadcastMsgs aId [bId, cId, dId, eId] 4 (.SolicitVote 3 2) := by
  decide

/-- Claim C3 (code bug): the claim says a candidate receiving its own
term's heartbeat becomes a follower of the sender at the same term with
the persisted self-vote retained; the code routes this through
`become_follower` (candidate.rs lines 69-72), which calls
`save_term(term, None)` (line 41) and so clears the persisted vote.  On
the concrete fixture (which entered candidacy with `voted_for = some "a"`
persisted, per spec §4.2) the same-term heartbeat from `b` demotes to
follower at term 3, re-dispatches (emitting `ConfirmLeader`), yet leaves
`voted_for = none`. -/
theorem heartbeat_same_term_clears_selfvote :
    cNode.votedFor = some aId
    ∧ ((candidateStep 7 cNode hb3).1).isFollower = true
    ∧ ((candidateStep 7 cNode hb3).1).termOf = 3
    ∧ ((candidateStep 7 cNode hb3).1).votedForOf = none
    ∧ (candidateStep 7 cNode hb3).2 = [mkMsg aId bId 3 (.ConfirmLeader 1 true)] := by
  decide

/-- Claim C4: a candidate receiving a message addressed to it with a term
strictly greater than its own and a sender persists `(msg.term, None)`,
becomes a follower of the sender at that term, and re-dispatches the same
message to the new follower. -/
theorem higher_term_become_follower_redispatch (ft : Nat) (n : RoleNode Candidate)
    (msg : Message) (f : String) (hto : msg.«to» = some n.id) (ht : n.term < msg.term)
    (hf : msg.«from» = some f) :
    candidateStep ft n msg =
      followerStep
        { id := n.id, peers := n.peers, term := msg.term, votedFor := none,
          log := n.log, state := n.state, role := Follower.new (some f) none ft } msg :=
  candidateStep_higher ft n msg f hto ht hf

theorem higher_term_become_follower_redispatch_witness :
    candidateStep 7 cNode sv5 =
      followerStep
        { id := cNode.id, peers := cNode.peers, term := sv5.term, votedFor := none,
          log := cNode.log, state := cNode.state, role := Follower.new (some dId) none 7 }
        sv5 :=
  higher_term_become_follower_redispatch 7 cNode sv5 dId rfl (by decide) rfl

/-- Claim C5 counterexample: a Heartbeat with term 5 > 3 and no sender
passes normalization (so it is processed), yet the candidate neither
adopts the greater term nor clears its vote — it stays a candidate at
term 3, unchanged. -/
theorem higher_term_without_sender_not_adopted :
    normalizeMessage cNode.id cNode.term hb5none = some { hb5none with «to» := some aId }
    ∧ cNode.term = 3 ∧ hb5none.term = 5 ∧ cNode.votedFor = some aId
    ∧ candidateStep 7 cNode hb5none = (Node.candidate cNode, []) := by
  decide

/-- Claim C5 as amended: on a message addressed to the candidate whose
term is strictly greater than its own and whose sender is present, the
candidate adopts the greater term with the persisted vote cleared (it
dispatches the message as a follower whose persisted record is
`(msg.term, none)`), and the resulting node's term is exactly the
message's term. -/
theorem higher_term_adopts_and_clears_vote (ft : Nat) (n : RoleNode Candidate)
    (msg : Message) (f : String) (hto : msg.«to» = some n.id) (ht : n.term < msg.term)
    (hf : msg.«from» = some f) :
    ∃ fn : RoleNode Follower,
      candidateStep ft n msg = followerStep fn msg
      ∧ fn.term = msg.term ∧ fn.votedFor = none
      ∧ ((candidateStep ft n msg).1).termOf = msg.term := by
  refine ⟨becomeFollower ft n msg.term f, candidateStep_higher ft n msg f hto ht hf,
    rfl, rfl, ?_⟩
  rw [candidateStep_higher ft n msg f hto ht hf]
  exact followerStep_term_of_le (becomeFollower ft n msg.term f) msg le_rfl

theorem higher_term_adopts_and_clears_vote_witness :
    ∃ fn : RoleNode Follower,
      candidateStep 7 cNode sv5 = followerStep fn sv5
      ∧ fn.term = sv5.term ∧ fn.votedFor = none
      ∧ ((candidateStep 7 cNode sv5).1).termOf = sv5.term :=
  higher_term_adopts_and_clears_vote 7 cNode sv5 dId rfl (by decide) rfl

/-- Claim C6 counterexample: the vote tally does not track distinct
granters — two `GrantVote` messages from the same peer `c` promote the
five-node fixture candidate to leader, although only two distinct vote
sources (itself and `c`) exist, below the quorum of 3. -/
theorem duplicate_votes_promote_counterexample :
    candidateStep 7 cNode gvC = (Node.candidate cNodeV2, [])
    ∧ ((candidateStep 7 cNodeV2 gvC).1).isLeader = true
    ∧ quorum cNode.peers = 3 := by
  decide

/-- Claim C6 as amended: a candidate is promoted to leader on a
`GrantVote` at its own term exactly when its `votes` counter — which
counts accepted GrantVote messages regardless of sender, plus the initial
self-vote — reaches `quorum()`; below that, the only effect is the
incremented counter and no role transition occurs. -/
theorem promotion_iff_vote_counter_quorum (ft : Nat) (n : RoleNode Candidate) (msg : Message)
    (hto : msg.«to» = some n.id) (ht : msg.term = n.term) (hev : msg.event = .GrantVote) :
    (((candidateStep ft n msg).1).isLeader = true ↔ quorum n.peers ≤ n.role.votes + 1)
    ∧ (n.role.votes + 1 < quorum n.peers →
      candidateStep ft n msg =
        (Node.candidate { n with role := { n.role with votes := n.role.votes + 1 } }, [])) := by
  rw [candidateStep_same_term ft n msg hto ht, candidateDispatch_grantVote ft n msg hev]
  constructor
  · by_cases hq : quorum n.peers ≤ n.role.votes + 1
    · rw [if_pos hq, becomeLeader_eq]
      simpa [Node.isLeader] using hq
    · rw [if_neg hq]
      simpa [Node.isLeader] using hq
  · intro hlt
    rw [if_neg (by omega)]

theorem promotion_iff_vote_counter_quorum_witness :
    (((candidateStep 7 cNodeV2 gvC).1).isLeader = true
      ↔ quorum cNodeV2.peers ≤ cNodeV2.role.votes + 1)
    ∧ (cNodeV2.role.votes + 1 < quorum cNodeV2.peers →
      candidateStep 7 cNodeV2 gvC =
        (Node.candidate
          { cNodeV2 with role := { cNodeV2.role with votes := cNodeV2.role.votes + 1 } }, [])) :=
  promotion_iff_vote_counter_quorum 7 cNodeV2 gvC rfl rfl rfl

/-- Claim C7: the candidate's term never decreases — whatever node (in
whatever role) a `step` or `tick` call returns, its term is at least the
term held before the call. -/
theorem term_monotonic (ft : Nat) (n : RoleNode Candidate) (msg : Message) :
    n.term ≤ ((candidateStep ft n msg).1).termOf
    ∧ n.term ≤ ((candidateTick ft n).1).termOf := by
  constructor
  · unfold candidateStep
    cases hn : normalizeMessage n.id n.term msg with
    | none => exact le_rfl
    | some m =>
      obtain ⟨hmt, hge⟩ := normalize_term hn
      have hnle : n.term ≤ m.term := by omega
      dsimp only
      split
      · cases hf : m.«from» with
        | some l =>
          exact le_trans hnle (followerStep_term_mono (becomeFollower ft n m.term l) m)
        | none => exact candidateDispatch_term_mono ft n m hnle
      · exact candidateDispatch_term_mono ft n m hnle
  · unfold candidateTick
    dsimp only
    split
    · exact Nat.le_succ n.term
    · exact le_rfl

/-- Claim C8: a message whose term is strictly below the candidate's term
is dropped silently — the candidate and all its data are unchanged and
nothing is emitted. -/
theorem stale_message_dropped (ft : Nat) (n : RoleNode Candidate) (msg : Message)
    (h : msg.term < n.term) : candidateStep ft n msg = (Node.candidate n, []) := by
  obtain ⟨f, mto, tm, ev⟩ := msg
  have h' : tm < n.term := h
  have hn : normalizeMessage n.id n.term ⟨f, mto, tm, ev⟩ = none := by
    rcases mto with - | t
    · simp [normalizeMessage, h']
    · by_cases hq : t = n.id <;> simp [normalizeMessage, hq, h']
  unfold candidateStep
  rw [hn]

theorem stale_message_dropped_witness :
    candidateStep 7 cNode hb2 = (Node.candidate cNode, []) :=
  stale_message_dropped 7 cNode hb2 (by decide)

/-- Claim C9: every candidate `tick` first drains the apply queue — after
the tick the node's log and state are exactly the result of `drainApply`,
on which a further `log.apply` yields nothing — and only then increments
`election_ticks` and performs the timeout check (the resulting term is
governed by the pre-drain `election_ticks + 1` against the timeout). -/
theorem tick_drains_apply_first (ft : Nat) (n : RoleNode Candidate) :
    ((candidateTick ft n).1).logOf = (drainApply n.log n.state).1
    ∧ ((candidateTick ft n).1).stateOf = (drainApply n.log n.state).2
    ∧ Log.applyOne (drainApply n.log n.state).1 (drainApply n.log n.state).2 = none
    ∧ ((candidateTick ft n).1).termOf =
      (if n.role.election_timeout ≤ n.role.election_ticks + 1 then n.term + 1 else n.term) := by
  refine ⟨?_, ?_, drainApply_exhausts n.log n.state, ?_⟩
  · unfold candidateTick
    dsimp only
    split
    · rfl
    · rfl
  · unfold candidateTick
    dsimp only
    split
    · rfl
    · rfl
  · unfold candidateTick
    dsimp only
    split
    · rfl
    · rfl

/-- Claim C10: a Heartbeat at exactly the candidate's term with no sender
(and which passes normalization) is ignored — the node stays the same
candidate, with nothing emitted. -/
theorem heartbeat_without_sender_ignored (ft : Nat) (n : RoleNode Candidate) (msg : Message)
    (ci ct : Nat) (hev : msg.event = .Heartbeat ci ct) (hf : msg.«from» = none)
    (ht : msg.term = n.term) (hto : msg.«to» = none ∨ msg.«to» = some n.id) :
    candidateStep ft n msg = (Node.candidate n, []) := by
  rcases hto with hto | hto
  · have hn : normalizeMessage n.id n.term msg = some { msg with «to» := some n.id } := by
      unfold normalizeMessage
      rw [hto]
      show (if msg.term < n.term then none else some { msg with «to» := some n.id }) = _
      rw [if_neg (by omega : ¬ msg.term < n.term)]
    rw [candidateStep_norm_some ft n msg _ hn]
    have hlt : ¬ n.term < ({ msg with «to» := some n.id } : Message).term := by
      show ¬ n.term < msg.term
      omega
    rw [if_neg hlt]
    unfold candidateDispatch
    rw [show ({ msg with «to» := some n.id } : Message).event = Event.Heartbeat ci ct from hev]
    rw [show ({ msg with «to» := some n.id } : Message).«from» = none from hf]
  · rw [candidateStep_same_term ft n msg hto ht]
    unfold candidateDispatch
    rw [hev, hf]

theorem heartbeat_without_sender_ignored_witness :
    candidateStep 7 cNode hbNone3 = (Node.candidate cNode, []) :=
  heartbeat_without_sender_ignored 7 cNode hbNone3 1 1 rfl rfl rfl (Or.inr rfl)

end Raft
